import Mathlib

/-
Verification development for the S-HTCP congestion-control module
(`tcp-shtcp.cc`).  The C++ member functions are shallowly embedded as pure
Lean functions over an explicit `State` record.  `double` arithmetic is
modelled by `ℝ`; `uint32_t` counters by `ℕ` with explicit `% 2^32` where the
source can wrap; `ns3::Time` values by `ℝ` in nanoseconds (the default
resolution), with `GetSeconds` dividing by 10^9 and `GetDouble` returning the
raw value.  A `static_cast<uint32_t>` applied to a `double`, and a `double`
division whose IEEE result (±∞ / NaN) would subsequently poison such a cast,
are fallible: they are embedded as `Option`-valued operations that return
`none` exactly where the C++ behaviour is undefined.
-/

noncomputable section

/-- nanoseconds per second: `Time::GetSeconds` divides the raw count by this. -/
def nsPerSec : ℝ := 1000000000

/-- seconds view of a raw nanosecond time value (`Time::GetSeconds`). -/
def sec (t : ℝ) : ℝ := t / nsPerSec

/-- raw value of `Time::Max ()` in nanoseconds (largest `int64_t`). -/
def timeMax : ℝ := 9223372036854775807

/-- raw value of `Time::Min ()` in nanoseconds (smallest `int64_t`). -/
def timeMin : ℝ := -9223372036854775808

/-- modulus of `uint32_t` arithmetic. -/
def u32Mod : ℕ := 4294967296

/-- literal `2.71828` hard-coded in the source as the exponential base. -/
def eConst : ℝ := 2.71828

/-- conversion `static_cast<uint32_t> (x)` of a `double`: defined (truncation
toward zero) exactly when the truncated value is representable, i.e. when
`-1 < x < 2^32`; undefined behaviour otherwise is modelled as `none`. -/
def castU32 (x : ℝ) : Option ℕ :=
  if -1 < x ∧ x < 4294967296 then some ⌊x⌋₊ else none

/-- division of `double`s feeding an integer conversion: IEEE division by zero
yields ±∞ or NaN, which poisons the subsequent `uint32_t` cast, so the zero
denominator is modelled as an undefined result. -/
def divD (num den : ℝ) : Option ℝ :=
  if den = 0 then none else some (num / den)

/-- configuration attributes of `TcpShtcp` (`DefaultBackoff`,
`ThroughputRatio`, `DeltaL`; the latter a raw nanosecond duration). -/
structure Config where
  defaultBackoff : ℝ
  throughputRatio : ℝ
  deltaL : ℝ

/-- mutable member state of a `TcpShtcp` object: `m_alpha`, `m_beta`,
`m_delta`, `m_lastCon`, `m_minRtt`, `m_maxRtt` (times in raw nanoseconds) and
the `uint32_t` counters `m_throughput`, `m_lastThroughput`, `m_dataSent`. -/
structure State where
  alpha : ℝ
  beta : ℝ
  delta : ℝ
  lastCon : ℝ
  minRtt : ℝ
  maxRtt : ℝ
  throughput : ℕ
  lastThroughput : ℕ
  dataSent : ℕ

/-- state installed by the constructor `TcpShtcp::TcpShtcp (void)`:
`m_alpha (0), m_beta (0), m_delta (0), m_lastCon (0), m_minRtt (Time::Max ()),
m_maxRtt (Time::Min ()), m_throughput (0), m_lastThroughput (0),
m_dataSent (0)`. -/
def initState : State :=
  { alpha := 0, beta := 0, delta := 0, lastCon := 0,
    minRtt := timeMax, maxRtt := timeMin,
    throughput := 0, lastThroughput := 0, dataSent := 0 }

/-- embedding of `TcpShtcp::UpdateAlpha` (`tcp-shtcp.cc` lines 116-139):
recomputes `m_delta = Simulator::Now () - m_lastCon`, takes the quadratic
H-TCP increase term (scaled by `pow(2.71828, (14 delta_s - 5 minRtt_s)/350)`)
when `m_delta > m_deltaL` and `1` otherwise, multiplies by
`2 (1 - m_beta)` and clamps the result up to `1`. -/
def updateAlpha (c : Config) (now : ℝ) (s : State) : State :=
  let delta := now - s.lastCon
  let base :=
    if delta ≤ c.deltaL then (1 : ℝ)
    else
      let diffSec := sec (delta - c.deltaL)
      eConst ^ ((14 * sec delta - 5 * sec s.minRtt) / 350) *
        (1 + 10 * diffSec + 0.25 * (diffSec * diffSec))
  let a := 2 * (1 - s.beta) * base
  { s with delta := delta, alpha := if a < 1 then 1 else a }

/-- embedding of `TcpShtcp::UpdateBeta` (`tcp-shtcp.cc` lines 141-157):
`m_beta` defaults to `m_defaultBackoff`; when
`m_throughput > m_lastThroughput && m_lastThroughput > 0` the ratio test
`diff / m_lastThroughput <= m_throughputRatio` is performed with the
truncating `uint32_t` division of the source (the quotient is only then
converted to `double` for the comparison), and on success `m_beta` becomes
`pow(2.71828, -m_delta.GetSeconds()/25) * (m_minRtt.GetDouble () /
m_maxRtt.GetDouble ())`. -/
def updateBeta (c : Config) (s : State) : State :=
  let b := c.defaultBackoff
  if s.throughput > s.lastThroughput ∧ s.lastThroughput > 0 then
    let diff : ℕ := s.throughput - s.lastThroughput
    if ((diff / s.lastThroughput : ℕ) : ℝ) ≤ c.throughputRatio then
      { s with beta := eConst ^ (-(sec s.delta) / 25) * (s.minRtt / s.maxRtt) }
    else { s with beta := b }
  else { s with beta := b }

/-- embedding of `TcpShtcp::GetSsThresh` (`tcp-shtcp.cc` lines 159-179):
sets `m_lastCon = Simulator::Now ()`, runs `UpdateBeta` then `UpdateAlpha`,
computes `max (2 * segmentSize, static_cast<uint32_t>(bytesInFlight * m_beta))`
(`2 * m_segmentSize` is `uint32_t` arithmetic, hence the `% 2^32`), resets the
epoch accumulators and returns the threshold together with the new state. -/
def getSsThresh (c : Config) (now : ℝ) (s : State)
    (bytesInFlight segSize : ℕ) : Option (ℕ × State) :=
  let s1 := updateBeta c { s with lastCon := now }
  let s2 := updateAlpha c now s1
  let segWin : ℕ := (2 * segSize) % u32Mod
  (castU32 ((bytesInFlight : ℝ) * s2.beta)).map fun bFlight =>
    (max segWin bFlight,
      { s2 with minRtt := timeMax, maxRtt := timeMin,
                lastThroughput := s2.throughput,
                throughput := 0, dataSent := 0 })

/-- embedding of `TcpShtcp::CongestionAvoidance` (`tcp-shtcp.cc` lines
101-114): when `segmentsAcked > 0`, `adder = max (1.0, (segmentSize^2 +
cWnd * m_alpha) / cWnd + m_alpha)` (the squaring is `uint32_t` arithmetic,
everything after is `double`), and `m_cWnd += static_cast<uint32_t>(adder)`
with `uint32_t` wrap-around.  The member state is not written. -/
def congestionAvoidance (s : State) (cwnd segSize acked : ℕ) :
    Option (ℕ × State) :=
  if 0 < acked then
    (divD ((((segSize * segSize) % u32Mod : ℕ) : ℝ) + (cwnd : ℝ) * s.alpha)
        (cwnd : ℝ)).bind fun q =>
      (castU32 (max 1 (q + s.alpha))).map fun adder =>
        ((cwnd + adder) % u32Mod, s)
  else some (cwnd, s)

/-- embedding of the two RTT-sample conditionals at the end of
`TcpShtcp::PktsAcked` (`tcp-shtcp.cc` lines 196-205): `if (rtt < m_minRtt)
m_minRtt = rtt;` then `if (rtt > m_maxRtt) m_maxRtt = rtt;`. -/
def rttObserve (rtt : ℝ) (x : State) : State :=
  let s2 := if rtt < x.minRtt then { x with minRtt := rtt } else x
  if rtt > s2.maxRtt then { s2 with maxRtt := rtt } else s2

/-- embedding of `TcpShtcp::PktsAcked` (`tcp-shtcp.cc` lines 181-206):
accumulates `m_dataSent` when the congestion state is `CA_OPEN`, recomputes
`m_throughput = static_cast<uint32_t>(m_dataSent / (Simulator::Now
().GetSeconds () - m_lastCon.GetSeconds ()))` with no guard on the
denominator, runs `UpdateAlpha`, and finally updates `m_minRtt`/`m_maxRtt`
from the sample via `rttObserve`. -/
def pktsAcked (c : Config) (now : ℝ) (s : State) (acked segSize : ℕ)
    (caOpen : Bool) (rtt : ℝ) : Option State :=
  let ds := if caOpen then (s.dataSent + acked * segSize) % u32Mod else s.dataSent
  (divD (ds : ℝ) (sec now - sec s.lastCon)).bind fun q =>
    (castU32 q).map fun tp =>
      rttObserve rtt (updateAlpha c now { s with dataSent := ds, throughput := tp })

/-- Modelled from the spec: the `UpdateAlpha` formula exactly as §4.1.2 words
it, parameterised by the exponential base `b` so that the spec's natural base
`e` and the source's literal `2.71828` can be compared. -/
def alphaSpecFormula (b : ℝ) (c : Config) (now : ℝ) (s : State) : ℝ :=
  let delta := now - s.lastCon
  let pre :=
    if delta ≤ c.deltaL then (1 : ℝ)
    else
      let diffSec := sec (delta - c.deltaL)
      b ^ ((14 * sec delta - 5 * sec s.minRtt) / 350) *
        (1 + 10 * diffSec + 0.25 * (diffSec * diffSec))
  max (2 * (1 - s.beta) * pre) 1

/-- the `beta` field is not written by `UpdateAlpha`. -/
@[simp] lemma updateAlpha_beta (c : Config) (now : ℝ) (s : State) :
    (updateAlpha c now s).beta = s.beta := rfl

/-- the `minRtt` field is not written by `UpdateAlpha`. -/
@[simp] lemma updateAlpha_minRtt (c : Config) (now : ℝ) (s : State) :
    (updateAlpha c now s).minRtt = s.minRtt := rfl

/-- the `maxRtt` field is not written by `UpdateAlpha`. -/
@[simp] lemma updateAlpha_maxRtt (c : Config) (now : ℝ) (s : State) :
    (updateAlpha c now s).maxRtt = s.maxRtt := rfl

/-- the `throughput` field is not written by `UpdateAlpha`. -/
@[simp] lemma updateAlpha_throughput (c : Config) (now : ℝ) (s : State) :
    (updateAlpha c now s).throughput = s.throughput := rfl

/-- the `lastThroughput` field is not written by `UpdateAlpha`. -/
@[simp] lemma updateAlpha_lastThroughput (c : Config) (now : ℝ) (s : State) :
    (updateAlpha c now s).lastThroughput = s.lastThroughput := rfl

/-- the `dataSent` field is not written by `UpdateAlpha`. -/
@[simp] lemma updateAlpha_dataSent (c : Config) (now : ℝ) (s : State) :
    (updateAlpha c now s).dataSent = s.dataSent := rfl

/-- the `lastCon` field is not written by `UpdateAlpha`. -/
@[simp] lemma updateAlpha_lastCon (c : Config) (now : ℝ) (s : State) :
    (updateAlpha c now s).lastCon = s.lastCon := rfl

/-- `UpdateAlpha` stores `now - m_lastCon` into `m_delta`. -/
@[simp] lemma updateAlpha_delta (c : Config) (now : ℝ) (s : State) :
    (updateAlpha c now s).delta = now - s.lastCon := rfl

/-- the `minRtt` field is not written by `UpdateBeta`. -/
@[simp] lemma updateBeta_minRtt (c : Config) (s : State) :
    (updateBeta c s).minRtt = s.minRtt := by
  simp only [updateBeta]; split_ifs <;> rfl

/-- the `maxRtt` field is not written by `UpdateBeta`. -/
@[simp] lemma updateBeta_maxRtt (c : Config) (s : State) :
    (updateBeta c s).maxRtt = s.maxRtt := by
  simp only [updateBeta]; split_ifs <;> rfl

/-- the `throughput` field is not written by `UpdateBeta`. -/
@[simp] lemma updateBeta_throughput (c : Config) (s : State) :
    (updateBeta c s).throughput = s.throughput := by
  simp only [updateBeta]; split_ifs <;> rfl

/-- the `lastThroughput` field is not written by `UpdateBeta`. -/
@[simp] lemma updateBeta_lastThroughput (c : Config) (s : State) :
    (updateBeta c s).lastThroughput = s.lastThroughput := by
  simp only [updateBeta]; split_ifs <;> rfl

/-- the `dataSent` field is not written by `UpdateBeta`. -/
@[simp] lemma updateBeta_dataSent (c : Config) (s : State) :
    (updateBeta c s).dataSent = s.dataSent := by
  simp only [updateBeta]; split_ifs <;> rfl

/-- the `delta` field is not written by `UpdateBeta`. -/
@[simp] lemma updateBeta_delta (c : Config) (s : State) :
    (updateBeta c s).delta = s.delta := by
  simp only [updateBeta]; split_ifs <;> rfl

/-- the `lastCon` field is not written by `UpdateBeta`. -/
@[simp] lemma updateBeta_lastCon (c : Config) (s : State) :
    (updateBeta c s).lastCon = s.lastCon := by
  simp only [updateBeta]; split_ifs <;> rfl

/-- `CongestionAvoidance` writes no member of the algorithm state: whenever it
succeeds, the state it returns is the state it was given. -/
lemma congAvoid_state (s : State) (cwnd seg acked w : ℕ) (s' : State)
    (h : congestionAvoidance s cwnd seg acked = some (w, s')) : s' = s := by
  unfold congestionAvoidance at h
  split_ifs at h with ha
  · simp only [Option.bind_eq_some, Option.map_eq_some', Prod.mk.injEq] at h
    obtain ⟨q, -, a, -, -, hs⟩ := h
    exact hs.symm
  · simp only [Option.some.injEq, Prod.mk.injEq] at h
    exact h.2.symm

/-- success characterisation of the embedded `double` division. -/
lemma divD_eq_some {num den q : ℝ} :
    divD num den = some q ↔ den ≠ 0 ∧ num / den = q := by
  unfold divD; split_ifs with h <;> simp [h]

/-- success characterisation of the embedded `uint32_t` conversion. -/
lemma castU32_eq_some {x : ℝ} {n : ℕ} :
    castU32 x = some n ↔ (-1 < x ∧ x < 4294967296) ∧ ⌊x⌋₊ = n := by
  unfold castU32; split_ifs with h <;> simp [h]

/-- the clamp `if (m_alpha < 1) m_alpha = 1` leaves a value that is ≥ 1. -/
lemma clampGe (a : ℝ) : 1 ≤ if a < 1 then (1 : ℝ) else a := by
  split_ifs with h
  · exact le_refl 1
  · exact le_of_not_lt h

/-- default attribute values of `TcpShtcp::GetTypeId`: `DefaultBackoff = 0.5`,
`ThroughputRatio = 0.2`, `DeltaL = Seconds (1)`. -/
def cfgDefault : Config :=
  { defaultBackoff := 0.5, throughputRatio := 0.2, deltaL := 1000000000 }

/-- freshly constructed state whose `m_alpha` has settled to 1 (the value
`UpdateAlpha` computes right after a congestion event). -/
def stAlphaOne : State := { initState with alpha := 1 }

/-- freshly constructed state whose `m_beta` has been set to the default
backoff 0.5. -/
def stBetaHalf : State := { initState with beta := 0.5 }

/-- evaluation of the spec §8 congestion-avoidance scenario on the embedded
code: `window = 10000`, `segmentSize = 1000`, `segmentsAcked = 1`,
`alpha = 1` yields the window `10102`. -/
lemma evalCA1 : congestionAvoidance stAlphaOne 10000 1000 1
    = some (10102, stAlphaOne) := by
  norm_num [congestionAvoidance, divD, castU32, u32Mod, stAlphaOne, initState,
    max_def]

/-- C6: after every call to `UpdateAlpha`, for every `beta ∈ (0,1]` and every
elapsed time `delta = now - lastCongestionEventTime ≥ 0` (and any `minRtt`),
the resulting `alpha` is at least 1; the final clamp in the source enforces
this. -/
theorem updateAlpha_alpha_ge_one (c : Config) (now : ℝ) (s : State)
    (hb0 : 0 < s.beta) (hb1 : s.beta ≤ 1) (hd : 0 ≤ now - s.lastCon) :
    1 ≤ (updateAlpha c now s).alpha := by
  simp only [updateAlpha]
  exact clampGe _

/-- concrete instantiation of `updateAlpha_alpha_ge_one`: the default
configuration, `now = 0` and a fresh state with `beta = 0.5` satisfy its
hypotheses, and the resulting `alpha` is ≥ 1. -/
theorem updateAlpha_alpha_ge_one_witness :
    0 < stBetaHalf.beta ∧ stBetaHalf.beta ≤ 1 ∧ 0 ≤ (0 : ℝ) - stBetaHalf.lastCon
      ∧ 1 ≤ (updateAlpha cfgDefault 0 stBetaHalf).alpha :=
  ⟨by norm_num [stBetaHalf, initState],
   by norm_num [stBetaHalf, initState],
   by norm_num [stBetaHalf, initState],
   updateAlpha_alpha_ge_one cfgDefault 0 stBetaHalf
     (by norm_num [stBetaHalf, initState])
     (by norm_num [stBetaHalf, initState])
     (by norm_num [stBetaHalf, initState])⟩

/-- C9: whenever `CongestionAvoidance` succeeds, every field of the algorithm
state (`alpha`, `beta`, `delta`, `lastCon`, `minRtt`, `maxRtt`, `throughput`,
`lastThroughput`, `dataSent`) is unchanged: the returned state equals the
input state, the only effect being the new window. -/
theorem congestionAvoidance_frame (s : State) (cwnd seg acked w : ℕ)
    (s' : State) (h : congestionAvoidance s cwnd seg acked = some (w, s')) :
    s' = s :=
  congAvoid_state s cwnd seg acked w s' h

/-- concrete instantiation of `congestionAvoidance_frame` on the spec §8
scenario: the call succeeds and returns the input state untouched. -/
theorem congestionAvoidance_frame_witness :
    congestionAvoidance stAlphaOne 10000 1000 1 = some (10102, stAlphaOne)
      ∧ stAlphaOne = stAlphaOne :=
  ⟨evalCA1, congestionAvoidance_frame stAlphaOne 10000 1000 1 10102 stAlphaOne
    evalCA1⟩

/-- C10: with `segmentsAcked > 0` the adder computation divides by the current
window: at `window = 0` the embedded operation is undefined (`none`), while
for every `window > 0` the division itself always succeeds (its error branch
is unreachable). -/
theorem congestionAvoidance_div_guard (s : State) (cwnd seg acked : ℕ)
    (ha : 0 < acked) :
    (cwnd = 0 → congestionAvoidance s cwnd seg acked = none) ∧
    (0 < cwnd →
      divD ((((seg * seg) % u32Mod : ℕ) : ℝ) + (cwnd : ℝ) * s.alpha) (cwnd : ℝ)
        = some (((((seg * seg) % u32Mod : ℕ) : ℝ) + (cwnd : ℝ) * s.alpha)
                  / (cwnd : ℝ))) := by
  constructor
  · rintro rfl
    simp [congestionAvoidance, divD, ha]
  · intro hc
    have hne : (cwnd : ℝ) ≠ 0 := Nat.cast_ne_zero.2 hc.ne'
    simp [divD, hne]

/-- concrete instantiation of `congestionAvoidance_div_guard`: one
acknowledged segment and a zero window make the embedded operation undefined. -/
theorem congestionAvoidance_div_guard_witness :
    0 < 1 ∧ congestionAvoidance initState 0 5 1 = none :=
  ⟨by norm_num,
   (congestionAvoidance_div_guard initState 0 5 1 (by norm_num)).1 rfl⟩

/-- the clamp `if (m_alpha < 1) m_alpha = 1` computes the maximum with 1. -/
lemma clampEqMax (a : ℝ) : (if a < 1 then (1 : ℝ) else a) = max a 1 := by
  rcases lt_or_le a 1 with h | h
  · rw [if_pos h, max_eq_right h.le]
  · rw [if_neg (not_lt.2 h), max_eq_left h]

/-- the literal base `2.71828` of the source is strictly below the natural
base `e`. -/
lemma eConst_lt_exp_one : eConst < Real.exp 1 := by
  have h9 := Real.exp_one_gt_d9
  unfold eConst
  linarith [h9]

/-- generic strict separation: at any input past the reference window with
`2 (1 - beta) = 1`, a positive exponent and a quadratic term ≥ 1, the alpha
computed by the source (base `2.71828`) is strictly below the alpha the spec
formula demands with the natural base `e`. -/
lemma alpha_base_lt (c : Config) (now : ℝ) (s : State)
    (hcond : ¬(now - s.lastCon ≤ c.deltaL))
    (hk : 2 * (1 - s.beta) = 1)
    (hE : 0 < (14 * sec (now - s.lastCon) - 5 * sec s.minRtt) / 350)
    (hQ : 1 ≤ 1 + 10 * sec (now - s.lastCon - c.deltaL)
            + 0.25 * (sec (now - s.lastCon - c.deltaL)
                        * sec (now - s.lastCon - c.deltaL))) :
    (updateAlpha c now s).alpha < alphaSpecFormula (Real.exp 1) c now s := by
  have hec0 : (0 : ℝ) ≤ eConst := by norm_num [eConst]
  have hec1 : (1 : ℝ) ≤ eConst := by norm_num [eConst]
  simp only [updateAlpha, alphaSpecFormula, if_neg hcond]
  rw [hk, one_mul, one_mul]
  set E := (14 * sec (now - s.lastCon) - 5 * sec s.minRtt) / 350 with hEdef
  set D := sec (now - s.lastCon - c.deltaL) with hDdef
  set Q := 1 + 10 * D + 0.25 * (D * D) with hQdef
  have hP1 : (1 : ℝ) ≤ eConst ^ E := by
    have h0 : eConst ^ (0 : ℝ) = 1 := Real.rpow_zero _
    rw [← h0]
    exact Real.rpow_le_rpow_of_exponent_le hec1 hE.le
  have hP1e : (1 : ℝ) ≤ Real.exp 1 ^ E := by
    rw [Real.exp_one_rpow]
    exact Real.one_le_exp hE.le
  have hPP : eConst ^ E < Real.exp 1 ^ E :=
    Real.rpow_lt_rpow hec0 eConst_lt_exp_one hE
  have hQ0 : (0 : ℝ) < Q := lt_of_lt_of_le one_pos hQ
  have hA : 1 ≤ eConst ^ E * Q := by nlinarith
  have hAe : 1 ≤ Real.exp 1 ^ E * Q := by nlinarith
  rw [if_neg (not_lt.2 hA), max_eq_left hAe]
  exact mul_lt_mul_of_pos_right hPP hQ0

/-- state used by the C5 counterexample: fresh state with `beta = 0.5` and a
zero minimum RTT, observed 26 simulated seconds after the epoch anchor. -/
def stMinZero : State := { initState with beta := 0.5, minRtt := 0 }

/-- C5 refuted as stated: at `deltaL = 1 s`, `beta = 0.5`, `minRtt = 0` and
`delta = 26 s`, the alpha computed by the code (base `2.71828`) differs from
the value the claim specifies with `e` the base of the natural exponential. -/
theorem updateAlpha_natural_base_counterexample :
    (updateAlpha cfgDefault 26000000000 stMinZero).alpha
      ≠ alphaSpecFormula (Real.exp 1) cfgDefault 26000000000 stMinZero :=
  ne_of_lt (alpha_base_lt cfgDefault 26000000000 stMinZero
    (by norm_num [cfgDefault, stMinZero, initState])
    (by norm_num [stMinZero, initState])
    (by norm_num [stMinZero, initState, sec, nsPerSec])
    (by norm_num [stMinZero, initState, sec, nsPerSec, cfgDefault]))

/-- C5 amended: `UpdateAlpha` recomputes `delta = now - lastCongestionEventTime`
and yields exactly the claimed piecewise formula — pre-scaling value 1 when
`delta ≤ deltaL`, otherwise `b^{(14 delta_s - 5 minRtt_s)/350} (1 + 10 diffSec
+ 0.25 diffSec²)` — scaled by `2 (1 - beta)` and clamped up to 1, with the
base `b` being the source literal `2.71828` rather than `e`. -/
theorem updateAlpha_formula (c : Config) (now : ℝ) (s : State) :
    (updateAlpha c now s).alpha = alphaSpecFormula eConst c now s
      ∧ (updateAlpha c now s).delta = now - s.lastCon := by
  refine ⟨?_, rfl⟩
  simp only [updateAlpha, alphaSpecFormula]
  exact clampEqMax _

/-- evaluation of the embedded `CongestionAvoidance` at `window = 1`,
`segmentSize = 2^16`, `alpha = 1`: the `uint32_t` squaring wraps to 0 and the
window grows only to 3. -/
lemma evalCA2 : congestionAvoidance stAlphaOne 1 65536 1
    = some (3, stAlphaOne) := by
  norm_num [congestionAvoidance, divD, castU32, u32Mod, stAlphaOne, initState,
    max_def]

/-- C7 refuted as stated: at `window = 1`, `segmentSize = 2^16`,
`segmentsAcked = 1`, `alpha = 1` the code returns window 3 (the `uint32_t`
squaring of `segmentSize` wraps to 0), not the claimed
`window + floor(max(1, (segmentSize² + window·alpha)/window + alpha))`. -/
theorem congestionAvoidance_wrap_counterexample :
    congestionAvoidance stAlphaOne 1 65536 1 = some (3, stAlphaOne)
      ∧ (3 : ℕ) ≠ 1 + ⌊max 1 (((65536 : ℝ) * 65536 + (1 : ℝ) * stAlphaOne.alpha)
          / (1 : ℝ) + stAlphaOne.alpha)⌋₊ := by
  refine ⟨evalCA2, ?_⟩
  have h1 : ((65536 : ℝ) * 65536 + (1 : ℝ) * stAlphaOne.alpha) / (1 : ℝ)
      + stAlphaOne.alpha = 4294967298 := by
    norm_num [stAlphaOne, initState]
  rw [h1, max_eq_right (by norm_num : (1 : ℝ) ≤ 4294967298)]
  have hf : ⌊(4294967298 : ℝ)⌋₊ = 4294967298 := by
    rw [show (4294967298 : ℝ) = ((4294967298 : ℕ) : ℝ) by norm_num]
    exact Nat.floor_natCast _
  rw [hf]
  norm_num

/-- C7 amended: `OnCongestionAvoidance` leaves the window unchanged when
`segmentsAcked = 0`; when `segmentsAcked > 0`, `window > 0` and
`segmentSize² < 2^32` (no `uint32_t` wrap in the squaring), a successful call
yields `(window + floor(max(1, (segmentSize² + window·alpha)/window +
alpha))) mod 2^32`, the final addition being `uint32_t` arithmetic. -/
theorem congestionAvoidance_window (s : State) (cwnd seg : ℕ) :
    congestionAvoidance s cwnd seg 0 = some (cwnd, s) ∧
    ∀ acked w s', 0 < acked → 0 < cwnd → seg * seg < u32Mod →
      congestionAvoidance s cwnd seg acked = some (w, s') →
      w = (cwnd + ⌊max 1 (((seg : ℝ) * (seg : ℝ) + (cwnd : ℝ) * s.alpha)
            / (cwnd : ℝ) + s.alpha)⌋₊) % u32Mod := by
  constructor
  · simp [congestionAvoidance]
  · intro acked w s' ha hc hseg h
    rw [congestionAvoidance, if_pos ha] at h
    simp only [Option.bind_eq_some, Option.map_eq_some', Prod.mk.injEq] at h
    obtain ⟨q, hq, adder, hcast, hw, -⟩ := h
    rw [divD_eq_some] at hq
    rw [castU32_eq_some] at hcast
    have hmod : (seg * seg) % u32Mod = seg * seg := Nat.mod_eq_of_lt hseg
    rw [← hw, ← hcast.2, ← hq.2, hmod]
    push_cast
    ring_nf

/-- concrete instantiation of `congestionAvoidance_window` on the spec §8
scenario (`window = 10000`, `segmentSize = 1000`, `alpha = 1`): the window
formula gives `10102`. -/
theorem congestionAvoidance_window_witness :
    0 < 1 ∧ 0 < 10000 ∧ 1000 * 1000 < u32Mod ∧
    (10102 : ℕ) = (10000 + ⌊max 1 (((1000 : ℝ) * (1000 : ℝ)
        + (10000 : ℝ) * stAlphaOne.alpha) / (10000 : ℝ)
        + stAlphaOne.alpha)⌋₊) % u32Mod :=
  ⟨by norm_num, by norm_num, by norm_num [u32Mod],
   (congestionAvoidance_window stAlphaOne 10000 1000).2 1 10102 stAlphaOne
     (by norm_num) (by norm_num) (by norm_num [u32Mod]) evalCA1⟩

/-- state of a `TcpShtcp` object right after a congestion event at simulated
time 0 starting from the freshly constructed state: `UpdateBeta` installs the
default backoff 0.5, `UpdateAlpha` settles at 1, the epoch accumulators are
reset. -/
def stAfter : State :=
  { alpha := 1, beta := 0.5, delta := 0, lastCon := 0,
    minRtt := timeMax, maxRtt := timeMin,
    throughput := 0, lastThroughput := 0, dataSent := 0 }

/-- evaluation of the spec §8 threshold scenario on the embedded code:
default configuration, congestion event at t = 0, `bytesInFlight = 30000`,
`segmentSize = 1000` gives threshold 15000. -/
lemma evalSs1 : getSsThresh cfgDefault 0 initState 30000 1000
    = some (15000, stAfter) := by
  norm_num [getSsThresh, updateBeta, updateAlpha, castU32, u32Mod, cfgDefault,
    initState, stAfter, sec, nsPerSec, Nat.max_def]

/-- evaluation of the embedded `GetSsThresh` at `bytesInFlight = 1000`,
`segmentSize = 500`: the `2·segmentSize` floor wins and the threshold is
1000. -/
lemma evalSs2 : getSsThresh cfgDefault 0 initState 1000 500
    = some (1000, stAfter) := by
  norm_num [getSsThresh, updateBeta, updateAlpha, castU32, u32Mod, cfgDefault,
    initState, stAfter, sec, nsPerSec, Nat.max_def]

/-- evaluation of the embedded `GetSsThresh` at `segmentSize = 2^31`: the
`uint32_t` doubling wraps to 0 and the returned threshold is only 500. -/
lemma evalSs3 : getSsThresh cfgDefault 0 initState 1000 2147483648
    = some (500, stAfter) := by
  norm_num [getSsThresh, updateBeta, updateAlpha, castU32, u32Mod, cfgDefault,
    initState, stAfter, sec, nsPerSec, Nat.max_def]

/-- C4 refuted as stated: at `segmentSize = 2^31` the `uint32_t` computation
`2 * m_segmentSize` wraps to 0 and `GetSsThresh` returns 500, strictly below
`2 × segmentSize = 2^32`. -/
theorem getSsThresh_wrap_counterexample :
    getSsThresh cfgDefault 0 initState 1000 2147483648 = some (500, stAfter)
      ∧ 500 < 2 * 2147483648 :=
  ⟨evalSs3, by norm_num⟩

/-- C4 amended: provided `2·segmentSize < 2^32` (no `uint32_t` wrap), a
successful `GetSsThresh` returns `max(2·segmentSize, floor(bytesInFlight ·
beta))` where `beta` is the value just computed by `UpdateBeta` in the same
call, and in particular the result is never below `2·segmentSize`. -/
theorem getSsThresh_formula (c : Config) (now : ℝ) (s : State)
    (bytesInFlight segSize t : ℕ) (s' : State)
    (hseg : 2 * segSize < u32Mod)
    (h : getSsThresh c now s bytesInFlight segSize = some (t, s')) :
    t = max (2 * segSize)
        ⌊(bytesInFlight : ℝ) * (updateBeta c { s with lastCon := now }).beta⌋₊
      ∧ 2 * segSize ≤ t := by
  rw [getSsThresh] at h
  simp only [Option.map_eq_some', Prod.mk.injEq] at h
  obtain ⟨bF, hcast, ht, -⟩ := h
  rw [castU32_eq_some] at hcast
  simp only [updateAlpha_beta] at hcast
  constructor
  · rw [← ht, Nat.mod_eq_of_lt hseg, ← hcast.2]
  · rw [← ht, Nat.mod_eq_of_lt hseg]
    exact Nat.le_max_left _ _

/-- concrete instantiation of `getSsThresh_formula` on the spec §8 scenario:
threshold `15000 = max(2000, floor(30000 · 0.5))`, not below `2000`. -/
theorem getSsThresh_formula_witness :
    2 * 1000 < u32Mod ∧
    ((15000 : ℕ) = max (2 * 1000)
        ⌊(30000 : ℝ) * (updateBeta cfgDefault
            { initState with lastCon := 0 }).beta⌋₊
      ∧ 2 * 1000 ≤ 15000) :=
  ⟨by norm_num [u32Mod],
   getSsThresh_formula cfgDefault 0 initState 30000 1000 15000 stAfter
     (by norm_num [u32Mod]) evalSs1⟩

/-- C8: whenever `GetSsThresh` succeeds, the state it leaves behind has
`minRtt` at the `Time::Max` sentinel, `maxRtt` at the `Time::Min` sentinel,
`lastThroughput` equal to the throughput held before the reset,
`throughput = 0` and `dataSent = 0`. -/
theorem getSsThresh_reset (c : Config) (now : ℝ) (s : State)
    (bytesInFlight segSize t : ℕ) (s' : State)
    (h : getSsThresh c now s bytesInFlight segSize = some (t, s')) :
    s'.minRtt = timeMax ∧ s'.maxRtt = timeMin
      ∧ s'.lastThroughput = s.throughput ∧ s'.throughput = 0
      ∧ s'.dataSent = 0 := by
  rw [getSsThresh] at h
  simp only [Option.map_eq_some', Prod.mk.injEq] at h
  obtain ⟨bF, -, -, hs⟩ := h
  rw [← hs]
  refine ⟨rfl, rfl, ?_, rfl, rfl⟩
  simp

/-- concrete instantiation of `getSsThresh_reset`: after the embedded
congestion event at t = 0, the sentinels and the accumulator resets hold. -/
theorem getSsThresh_reset_witness :
    stAfter.minRtt = timeMax ∧ stAfter.maxRtt = timeMin
      ∧ stAfter.lastThroughput = initState.throughput
      ∧ stAfter.throughput = 0 ∧ stAfter.dataSent = 0 :=
  getSsThresh_reset cfgDefault 0 initState 1000 500 1000 stAfter evalSs2

/-- state exercising the C1 failing input: current epoch throughput 1300,
previous epoch throughput 1000 (a 30 % improvement), equal RTT extremes of
0.1 s and `delta = 0`. -/
def stThr : State :=
  { initState with throughput := 1300, lastThroughput := 1000,
                   minRtt := 100000000, maxRtt := 100000000 }

/-- C1 failing input evaluated on the code: the truncating `uint32_t` division
computes `(1300 - 1000) / 1000 = 0 ≤ 0.2`, so `UpdateBeta` overrides `beta`
to `2.71828^0 · (minRtt/maxRtt) = 1`, even though the real relative
improvement `0.3` exceeds the threshold `0.2` and the claim therefore
requires `beta = defaultBackoff = 0.5`. -/
theorem updateBeta_integer_division_bug :
    (updateBeta cfgDefault stThr).beta = 1
      ∧ cfgDefault.throughputRatio
          < ((stThr.throughput : ℝ) - stThr.lastThroughput) / stThr.lastThroughput
      ∧ cfgDefault.defaultBackoff ≠ 1 := by
  refine ⟨?_, by norm_num [cfgDefault, stThr, initState],
    by norm_num [cfgDefault]⟩
  have h0 : eConst ^ (-(sec (0 : ℝ)) / 25) = 1 := by
    rw [show -(sec (0 : ℝ)) / 25 = (0 : ℝ) by norm_num [sec, nsPerSec]]
    exact Real.rpow_zero _
  norm_num [updateBeta, stThr, initState, cfgDefault, h0]

/-- state exercising the C2 failing input: last congestion event at simulated
time 5 s, 1000 bytes already accumulated, stored throughput 500 B/s. -/
def stAck : State :=
  { initState with lastCon := 5000000000, dataSent := 1000, throughput := 500 }

/-- C2 failing input evaluated on the code: an acknowledgment arriving at the
same simulated time as the last congestion event makes the elapsed-time
denominator zero; `PktsAcked` performs the division anyway, and the undefined
`uint32_t` cast of the IEEE result is the modelled fault (`none`) — the prior
throughput 500 is not retained. -/
theorem pktsAcked_div_fault :
    pktsAcked cfgDefault 5000000000 stAck 1 1000 true 100000000 = none := by
  norm_num [pktsAcked, divD, sec, nsPerSec, stAck, initState]

/-- the `delta` field is not written by the RTT-sample conditionals. -/
@[simp] lemma rttObserve_delta (rtt : ℝ) (x : State) :
    (rttObserve rtt x).delta = x.delta := by
  simp only [rttObserve]; split_ifs <;> rfl

/-- the `beta` field is not written by the RTT-sample conditionals. -/
@[simp] lemma rttObserve_beta (rtt : ℝ) (x : State) :
    (rttObserve rtt x).beta = x.beta := by
  simp only [rttObserve]; split_ifs <;> rfl

/-- the `throughput` field is not written by the RTT-sample conditionals. -/
@[simp] lemma rttObserve_throughput (rtt : ℝ) (x : State) :
    (rttObserve rtt x).throughput = x.throughput := by
  simp only [rttObserve]; split_ifs <;> rfl

/-- after the RTT-sample conditionals run on a state whose extremes are
either both at their sentinels or properly ordered, a positive sample below
the `Time::Max` sentinel leaves `0 < minRtt ≤ maxRtt`. -/
lemma rttObserve_pair (rtt : ℝ) (x : State)
    (hp : (x.minRtt = timeMax ∧ x.maxRtt = timeMin)
            ∨ (0 < x.minRtt ∧ x.minRtt ≤ x.maxRtt))
    (hrtt0 : 0 < rtt) (hrttM : rtt < timeMax) :
    0 < (rttObserve rtt x).minRtt
      ∧ (rttObserve rtt x).minRtt ≤ (rttObserve rtt x).maxRtt := by
  simp only [rttObserve]
  rcases hp with ⟨hm, hM⟩ | ⟨hm0, hmm⟩
  · have c1 : rtt < x.minRtt := by rw [hm]; exact hrttM
    rw [if_pos c1]
    have c2 : rtt > ({ x with minRtt := rtt } : State).maxRtt := by
      show x.maxRtt < rtt
      rw [hM]
      exact lt_trans (by norm_num [timeMin]) hrtt0
    rw [if_pos c2]
    exact ⟨hrtt0, le_refl rtt⟩
  · by_cases c1 : rtt < x.minRtt
    · rw [if_pos c1]
      by_cases c2 : rtt > ({ x with minRtt := rtt } : State).maxRtt
      · rw [if_pos c2]
        exact ⟨hrtt0, le_refl rtt⟩
      · rw [if_neg c2]
        have hle : rtt ≤ x.maxRtt := le_of_not_lt (by simpa using c2)
        exact ⟨hrtt0, hle⟩
    · rw [if_neg c1]
      have hmr : x.minRtt ≤ rtt := le_of_not_lt c1
      by_cases c2 : rtt > x.maxRtt
      · rw [if_pos c2]
        exact ⟨hm0, hmr⟩
      · rw [if_neg c2]
        exact ⟨hm0, hmm⟩

/-- well-formed configuration: the default backoff lies in (0, 1] (spec §7
requires rejecting anything outside it at construction time). -/
def ValidConfig (c : Config) : Prop :=
  0 < c.defaultBackoff ∧ c.defaultBackoff ≤ 1

/-- inductive invariant carried by every reachable controller state:
non-negative `delta`, `beta` either still at its construction value 0 or in
(0, 1], RTT extremes either both at their sentinels or properly ordered and
positive, and an epoch with positive measured throughput always has ordered
positive RTT extremes. -/
def StInv (s : State) : Prop :=
  0 ≤ s.delta
    ∧ (s.beta = 0 ∨ (0 < s.beta ∧ s.beta ≤ 1))
    ∧ ((s.minRtt = timeMax ∧ s.maxRtt = timeMin)
         ∨ (0 < s.minRtt ∧ s.minRtt ≤ s.maxRtt))
    ∧ (0 < s.throughput → 0 < s.minRtt ∧ s.minRtt ≤ s.maxRtt)

/-- states reachable by the event-driven contract of spec §4.1: the
constructed state, acknowledgments with a positive RTT sample within the
`Time` range arriving no earlier than the epoch anchor, congestion events,
and congestion-avoidance window growth. -/
inductive Reachable (c : Config) : State → Prop where
  | init : Reachable c initState
  | ack (s : State) (now rtt : ℝ) (acked segSize : ℕ) (caOpen : Bool)
      (s' : State) (hr : Reachable c s) (hnow : s.lastCon ≤ now)
      (hrtt0 : 0 < rtt) (hrttM : rtt < timeMax)
      (h : pktsAcked c now s acked segSize caOpen rtt = some s') :
      Reachable c s'
  | congest (s : State) (now : ℝ) (bytesInFlight segSize t : ℕ) (s' : State)
      (hr : Reachable c s)
      (h : getSsThresh c now s bytesInFlight segSize = some (t, s')) :
      Reachable c s'
  | avoid (s : State) (cwnd segSize acked w : ℕ) (s' : State)
      (hr : Reachable c s)
      (h : congestionAvoidance s cwnd segSize acked = some (w, s')) :
      Reachable c s'

/-- the value `UpdateBeta` installs lies in (0, 1] whenever the configuration
is well formed, the stored `delta` is non-negative, and a positive measured
throughput guarantees ordered positive RTT extremes. -/
lemma updateBeta_beta_range (c : Config) (s : State) (hc : ValidConfig c)
    (hd : 0 ≤ s.delta)
    (ht : 0 < s.throughput → 0 < s.minRtt ∧ s.minRtt ≤ s.maxRtt) :
    0 < (updateBeta c s).beta ∧ (updateBeta c s).beta ≤ 1 := by
  simp only [updateBeta]
  split_ifs with hg hr
  · have hthr : 0 < s.throughput := lt_trans hg.2 hg.1
    obtain ⟨hm0, hmm⟩ := ht hthr
    have hM0 : 0 < s.maxRtt := lt_of_lt_of_le hm0 hmm
    have hE0 : (0 : ℝ) < eConst ^ (-(sec s.delta) / 25) :=
      Real.rpow_pos_of_pos (by norm_num [eConst]) _
    have hE1 : eConst ^ (-(sec s.delta) / 25) ≤ 1 := by
      apply Real.rpow_le_one_of_one_le_of_nonpos (by norm_num [eConst])
      have hsd : 0 ≤ sec s.delta := div_nonneg hd (by norm_num [nsPerSec])
      rw [neg_div]
      exact neg_nonpos.2 (div_nonneg hsd (by norm_num))
    have hR0 : 0 < s.minRtt / s.maxRtt := div_pos hm0 hM0
    have hR1 : s.minRtt / s.maxRtt ≤ 1 := (div_le_one hM0).2 hmm
    exact ⟨mul_pos hE0 hR0, mul_le_one₀ hE1 hR0.le hR1⟩
  · exact ⟨hc.1, hc.2⟩
  · exact ⟨hc.1, hc.2⟩

/-- the constructed state satisfies the inductive invariant. -/
lemma inv_init : StInv initState := by
  refine ⟨le_refl 0, Or.inl rfl, Or.inl ⟨rfl, rfl⟩, ?_⟩
  intro h
  exact absurd h (by norm_num [initState])

/-- a successful congestion event preserves the invariant and leaves `beta`
in (0, 1]. -/
lemma inv_getSsThresh (c : Config) (now : ℝ) (s : State)
    (bytesInFlight segSize t : ℕ) (s' : State) (hc : ValidConfig c)
    (hs : StInv s)
    (h : getSsThresh c now s bytesInFlight segSize = some (t, s')) :
    StInv s' ∧ 0 < s'.beta ∧ s'.beta ≤ 1 := by
  obtain ⟨hd, hb, hp, hti⟩ := hs
  have hbr := updateBeta_beta_range c { s with lastCon := now } hc hd hti
  rw [getSsThresh] at h
  simp only [Option.map_eq_some', Prod.mk.injEq] at h
  obtain ⟨bF, -, -, hrec⟩ := h
  rw [← hrec]
  refine ⟨⟨?_, ?_, ?_, ?_⟩, ?_⟩
  · simp
  · right; simpa using hbr
  · left; exact ⟨rfl, rfl⟩
  · intro h0; exact absurd h0 (by simp)
  · simpa using hbr

/-- a successful acknowledgment event preserves the invariant. -/
lemma inv_pktsAcked (c : Config) (now rtt : ℝ) (s : State)
    (acked segSize : ℕ) (caOpen : Bool) (s' : State) (hs : StInv s)
    (hnow : s.lastCon ≤ now) (hrtt0 : 0 < rtt) (hrttM : rtt < timeMax)
    (h : pktsAcked c now s acked segSize caOpen rtt = some s') :
    StInv s' := by
  obtain ⟨hd, hb, hp, hti⟩ := hs
  rw [pktsAcked] at h
  simp only [Option.bind_eq_some, Option.map_eq_some'] at h
  obtain ⟨q, -, tp, -, hs'⟩ := h
  rw [← hs']
  have hpair := rttObserve_pair rtt
    (updateAlpha c now
      { s with
        dataSent := if caOpen then (s.dataSent + acked * segSize) % u32Mod
                    else s.dataSent,
        throughput := tp })
    (by simpa using hp) hrtt0 hrttM
  refine ⟨?_, ?_, Or.inr hpair, fun h0 => hpair⟩
  · simp only [rttObserve_delta, updateAlpha_delta]
    exact sub_nonneg.2 hnow
  · simpa using hb

/-- every reachable controller state satisfies the inductive invariant. -/
lemma inv_reachable (c : Config) (s : State) (hc : ValidConfig c)
    (h : Reachable c s) : StInv s := by
  induction h with
  | init => exact inv_init
  | ack s now rtt acked segSize caOpen s' hr hnow hrtt0 hrttM hstep ih =>
      exact inv_pktsAcked c now rtt s acked segSize caOpen s' ih hnow hrtt0
        hrttM hstep
  | congest s now bytesInFlight segSize t s' hr hstep ih =>
      exact (inv_getSsThresh c now s bytesInFlight segSize t s' hc ih hstep).1
  | avoid s cwnd segSize acked w s' hr hstep ih =>
      exact (congAvoid_state s cwnd segSize acked w s' hstep) ▸ ih

/-- C3 amended: under a well-formed configuration, in every reachable state
`beta` is either in (0, 1] or still equal to 0, the value installed by the
constructor before the first congestion event; moreover `beta` is in (0, 1]
as soon as `UpdateBeta` has run once, i.e. after any successful congestion
event. -/
theorem beta_reachable (c : Config) (s : State) (hc : ValidConfig c)
    (h : Reachable c s) :
    (s.beta = 0 ∨ (0 < s.beta ∧ s.beta ≤ 1)) ∧
    ∀ now bytesInFlight segSize t s',
      getSsThresh c now s bytesInFlight segSize = some (t, s') →
      0 < s'.beta ∧ s'.beta ≤ 1 := by
  have hi := inv_reachable c s hc h
  exact ⟨hi.2.1, fun now bytesInFlight segSize t s' hss =>
    (inv_getSsThresh c now s bytesInFlight segSize t s' hc hi hss).2⟩

/-- C3 refuted as stated: the freshly constructed state — reachable before
any event — carries `m_beta (0)`, which lies outside (0, 1]. -/
theorem beta_init_counterexample :
    initState.beta = 0 ∧ ¬(0 < initState.beta ∧ initState.beta ≤ 1) := by
  norm_num [initState]

/-- concrete instantiation of `beta_reachable`: the default configuration is
well formed, the constructed state is reachable, and its `beta` is 0. -/
theorem beta_reachable_witness :
    ValidConfig cfgDefault ∧
      (initState.beta = 0 ∨ (0 < initState.beta ∧ initState.beta ≤ 1)) :=
  ⟨by norm_num [ValidConfig, cfgDefault],
   (beta_reachable cfgDefault initState
      (by norm_num [ValidConfig, cfgDefault]) Reachable.init).1⟩
